import Mathlib

/-!
# Verification of the cairn task-orchestration kernel

Shallow embedding of the persistence and agent-loop code of the `cairn`
repository, together with proofs settling the frozen claims about it.

Python dictionaries holding JSON data are embedded as association lists of
`String × Json`; SQLite tables are embedded as lists of row structures with
`INSERT OR REPLACE` modelled as delete-matching-key-then-append.  Fallible
code returns `Option`.
-/

namespace Cairn

/-- A JSON value, as produced by Python's `json.loads`.  Objects are
association lists in insertion order (Python dicts preserve insertion
order). Numbers are integers, which covers every value the embedded code
manipulates. -/
inductive Json where
  | null : Json
  | bool (b : Bool) : Json
  | num (n : Int) : Json
  | str (s : String) : Json
  | arr (xs : List Json) : Json
  | obj (kvs : List (String × Json)) : Json
deriving Repr

/-- Structural equality of JSON values, modelling Python's `==` on the
values `json.loads` returns. -/
def Json.beq (a b : Json) : Bool :=
  match a, b with
  | .null, .null => true
  | .bool x, .bool y => x == y
  | .num x, .num y => x == y
  | .str x, .str y => x == y
  | .arr [], .arr [] => true
  | .arr (x :: xs), .arr (y :: ys) => Json.beq x y && Json.beq (.arr xs) (.arr ys)
  | .obj [], .obj [] => true
  | .obj ((k, v) :: xs), .obj ((k', v') :: ys) =>
      k == k' && Json.beq v v' && Json.beq (.obj xs) (.obj ys)
  | _, _ => false
termination_by sizeOf a
decreasing_by all_goals (simp_wf; try omega)

/-- Python truthiness of a JSON value (`bool(x)`): `None`, `False`, `0`,
`""`, `[]` and `{}` are falsy, everything else truthy. -/
def Json.truthy : Json → Bool
  | .null => false
  | .bool b => b
  | .num n => n != 0
  | .str s => s ≠ ""
  | .arr xs => !xs.isEmpty
  | .obj kvs => !kvs.isEmpty

/-- `d.get k` on an association list: first binding wins (keys are unique in
the lists we build, mirroring Python dict semantics). -/
def alistGet (kvs : List (String × Json)) (k : String) : Option Json :=
  (kvs.find? (fun p => p.1 = k)).map (·.2)

/-- Membership test `k in d`. -/
def alistHas (kvs : List (String × Json)) (k : String) : Bool :=
  (kvs.find? (fun p => p.1 = k)).isSome

/-- `d[k] = v` on an association list: overwrite in place when the key is
present, else append (Python dict assignment keeps insertion order). -/
def alistSet (kvs : List (String × Json)) (k : String) (v : Json) : List (String × Json) :=
  match kvs with
  | [] => [(k, v)]
  | (k', v') :: rest =>
    if k' = k then (k, v) :: rest else (k', v') :: alistSet rest k v

/-- Sequential `d.update({...})` with several keys. -/
def alistSetMany (kvs : List (String × Json)) : List (String × Json) → List (String × Json)
  | [] => kvs
  | (k, v) :: rest => alistSetMany (alistSet kvs k v) rest

theorem alistGet_alistSet_self (kvs : List (String × Json)) (k : String) (v : Json) :
    alistGet (alistSet kvs k v) k = some v := by
  induction kvs with
  | nil => simp [alistSet, alistGet]
  | cons p rest ih =>
    obtain ⟨pk, pv⟩ := p
    by_cases h : pk = k
    · simp [alistSet, alistGet, h]
    · simpa [alistSet, alistGet, h] using ih

theorem alistGet_alistSet_other (kvs : List (String × Json)) (k k' : String) (v : Json)
    (hne : k' ≠ k) : alistGet (alistSet kvs k v) k' = alistGet kvs k' := by
  induction kvs with
  | nil => simp [alistSet, alistGet, Ne.symm hne]
  | cons p rest ih =>
    obtain ⟨pk, pv⟩ := p
    by_cases h : pk = k
    · subst h
      simp [alistSet, alistGet, Ne.symm hne, hne]
    · by_cases h' : pk = k'
      · simp [alistSet, alistGet, h, h', hne]
      · simpa [alistSet, alistGet, h, h'] using ih

/-! ## Store: `subtask_ids` table (`task_storage.py`)

`CREATE TABLE subtask_ids (fullstack_run_id, subtask_index, subtask_id,
agent_type, PRIMARY KEY (fullstack_run_id, subtask_index))`. -/

/-- One row of the `subtask_ids` table. -/
structure SubtaskRow where
  fullstack_run_id : String
  subtask_index : Nat
  subtask_id : String
  agent_type : String
deriving Repr, DecidableEq

/-- A generated-id record returned by `pre_generate_subtask_ids`
(`{"subtask_id": ..., "subtask_index": ..., "agent_type": ...}`). -/
structure GeneratedId where
  subtask_id : String
  subtask_index : Nat
  agent_type : String
deriving Repr, DecidableEq

/-- `INSERT OR REPLACE INTO subtask_ids`: SQLite deletes any row conflicting
on the primary key `(fullstack_run_id, subtask_index)` and inserts the new
row. -/
def upsertSubtaskRow (tbl : List SubtaskRow) (r : SubtaskRow) : List SubtaskRow :=
  tbl.filter (fun q =>
    ¬(q.fullstack_run_id = r.fullstack_run_id ∧ q.subtask_index = r.subtask_index)) ++ [r]

/-- The id string `f"pm_subtask_{timestamp}_{idx}"`. -/
def mkSubtaskId (timestamp idx : Nat) : String :=
  "pm_subtask_" ++ toString timestamp ++ "_" ++ toString idx

/-- The row written for index `idx` (agent type is the literal `"PM"`). -/
def mkSubtaskRow (timestamp : Nat) (run_id : String) (idx : Nat) : SubtaskRow :=
  ⟨run_id, idx, mkSubtaskId timestamp idx, "PM"⟩

/-- The record appended to `generated_ids` for index `idx`. -/
def mkGeneratedId (timestamp idx : Nat) : GeneratedId :=
  ⟨mkSubtaskId timestamp idx, idx, "PM"⟩

/-- One iteration of the loop in `pre_generate_subtask_ids`:
`conn.execute(INSERT OR REPLACE ...)` then `generated_ids.append(...)`. -/
def preGenStep (timestamp : Nat) (fullstack_run_id : String)
    (st : List GeneratedId × List SubtaskRow) (idx : Nat) :
    List GeneratedId × List SubtaskRow :=
  (st.1 ++ [mkGeneratedId timestamp idx],
   upsertSubtaskRow st.2 (mkSubtaskRow timestamp fullstack_run_id idx))

/-- `TaskStorage.pre_generate_subtask_ids(fullstack_run_id, num_subtasks)`:
`timestamp` is the `int(time.time())` captured once at the start of the
call; then `for idx in range(num_subtasks)` the row is stored with
`INSERT OR REPLACE` keyed on `(fullstack_run_id, idx)` and the record is
appended to `generated_ids`, which is returned.  Returns the pair
(returned list, updated table). -/
def pre_generate_subtask_ids (timestamp : Nat) (fullstack_run_id : String)
    (num_subtasks : Nat) (tbl : List SubtaskRow) : List GeneratedId × List SubtaskRow :=
  (List.range num_subtasks).foldl (preGenStep timestamp fullstack_run_id) ([], tbl)

/-- Insertion into a list sorted by `subtask_index` (used to model SQL
`ORDER BY subtask_index`). -/
def insertByIdx (r : SubtaskRow) : List SubtaskRow → List SubtaskRow
  | [] => [r]
  | q :: qs => if r.subtask_index ≤ q.subtask_index then r :: q :: qs else q :: insertByIdx r qs

/-- Insertion sort by `subtask_index`. -/
def sortByIdx : List SubtaskRow → List SubtaskRow
  | [] => []
  | r :: rs => insertByIdx r (sortByIdx rs)

/-- `TaskStorage.get_subtask_ids(fullstack_run_id)`: all rows for the run,
`ORDER BY subtask_index`. -/
def get_subtask_ids (fullstack_run_id : String) (tbl : List SubtaskRow) : List GeneratedId :=
  (sortByIdx (tbl.filter (fun r => r.fullstack_run_id = fullstack_run_id))).map
    (fun r => ⟨r.subtask_id, r.subtask_index, r.agent_type⟩)

/-! ## Store: `active_tasks` table (`task_storage.py`) -/

/-- One row of `active_tasks` (`task_id PK, payload JSON, run_ids JSON`);
timestamps are not modelled as no claim concerns them. -/
structure ActiveTaskRow where
  task_id : String
  payload : Json
  run_ids : List String
deriving Repr

/-- `TaskStorage.add_run_id_to_task(task_id, run_id)`: reads the row's
`run_ids`, appends `run_id` (unconditionally — there is no membership
check in the source), and writes the list back.  If the row is missing,
only a warning is logged and the table is unchanged. -/
def add_run_id_to_task (tbl : List ActiveTaskRow) (task_id run_id : String) :
    List ActiveTaskRow :=
  tbl.map (fun r =>
    if r.task_id = task_id then { r with run_ids := r.run_ids ++ [run_id] } else r)

/-- `TaskStorage.get_task_run_ids(task_id)`: the row's `run_ids`, or `[]`
when the row is missing. -/
def get_task_run_ids (tbl : List ActiveTaskRow) (task_id : String) : List String :=
  match tbl.find? (fun r => r.task_id = task_id) with
  | some r => r.run_ids
  | none => []

/-! ## Store: `task_logs` table and `load_log` (`task_storage.py`) -/

/-- One row of `task_logs`; `UNIQUE(run_id, agent_type)` means at most one
row matches a `(run_id, agent_type)` pair, so the `ORDER BY updated_at DESC
LIMIT 1` of `load_log` reduces to finding the row. -/
structure LogRow where
  task_id : String
  run_id : String
  agent_type : String
  log_data : Json
deriving Repr

/-- `TaskStorage.load_log(run_id, agent_type)`: returns the stored JSON of
the matching row, or the empty dict `{}` when no row exists. -/
def load_log (tbl : List LogRow) (run_id agent_type : String) : Json :=
  match tbl.find? (fun r => r.run_id = run_id ∧ r.agent_type = agent_type) with
  | some r => r.log_data
  | none => Json.obj []

/-- The fresh log document built by `AgentLogger._setup_log_document` when no
usable log exists. -/
def initialLogData (task_id run_id now : String) : Json :=
  Json.obj [("task_id", .str task_id), ("run_id", .str run_id),
    ("last_updated", .str now), ("progress", .arr [])]

/-- Branch decision of `AgentLogger._setup_log_document`: `if existing_log:`
reuse it, else build the fresh initial document.  (A missing row yields `{}`
from `load_log`, which is falsy, so it takes the fresh branch.) -/
def setup_log_document (existing_log : Json) (task_id run_id now : String) : Json :=
  if existing_log.truthy then existing_log else initialLogData task_id run_id now

/-! ## `PersistentDict` mutators (`task_storage.py`)

Each mutating method updates the underlying dict and then may call
`_schedule_save()`.  Each embedded operation returns the new dict state
together with a flag telling whether `_schedule_save()` was called; the
debounce timer itself is real-time behaviour and is not part of any
decided statement. -/

/-- `PersistentDict.__setitem__`: store and unconditionally schedule. -/
def pdict_setitem (d : List (String × Json)) (k : String) (v : Json) :
    List (String × Json) × Bool :=
  (alistSet d k v, true)

/-- `PersistentDict.update` (single-pair form): store and unconditionally
schedule once. -/
def pdict_update (d : List (String × Json)) (kvs : List (String × Json)) :
    List (String × Json) × Bool :=
  (alistSetMany d kvs, true)

/-- `PersistentDict.setdefault`: first `super().setdefault(key, default)`
inserts the key when absent and returns the bound value; then the source
guards the save with `if key not in self or self[key] != default:` —
evaluated on the dict *after* the insertion.  Returns
(new state, returned value, whether `_schedule_save()` was called). -/
def pdict_setdefault (d : List (String × Json)) (k : String) (default : Json) :
    List (String × Json) × Json × Bool :=
  let d2 := if alistHas d k then d else d ++ [(k, default)]
  let result := (alistGet d2 k).getD default
  let schedules :=
    if alistHas d2 k then !(Json.beq ((alistGet d2 k).getD Json.null) default)
    else true
  (d2, result, schedules)

/-! ## Wrapper entrypoint completion (`agents/wrapper.py`) and the SWE
`generate_output` tool (`agent_classes.py`) -/

/-- One entry of `state.tool_outputs` as built by `tool_execution_node`. -/
structure ToolOutputEntry where
  tool_name : String
  tool_id : String
  tool_input : Json
  tool_output : Json
  is_error : Bool
deriving Repr

/-- `CodeEditorToolBox.get_generate_output_tool`'s inner `generate_output`:
takes the validated `SWEResponse` dump, adds `branch_url` when `self.branch
and self.owner and self.repo` are truthy (non-empty strings), then sets
`output["end_task"] = True` and returns it. -/
def generate_output_swe (validated : List (String × Json)) (branch owner repo : String) :
    List (String × Json) :=
  let withUrl :=
    if branch ≠ "" ∧ owner ≠ "" ∧ repo ≠ "" then
      alistSet validated "branch_url"
        (.str ("https://github.com/" ++ owner ++ "/" ++ repo ++ "/tree/" ++ branch))
    else validated
  alistSet withUrl "end_task" (.bool true)

/-- Normal-completion tail of `wrapper`:
`generated_output = final_state['tool_outputs'][-1]['tool_output']` followed
by `payload.update({"agent_output": generated_output, "agent_status":
"Completed", "updated_at": now})`.  `[-1]` on an empty list raises, hence
`Option`.  The stored value is `generated_output` verbatim: no key of it is
removed or rewritten. -/
def wrapper_complete (payload : List (String × Json)) (tool_outputs : List ToolOutputEntry)
    (now : String) : Option (List (String × Json)) :=
  match tool_outputs.getLast? with
  | none => none
  | some entry =>
      some (alistSetMany payload
        [("agent_output", entry.tool_output),
         ("agent_status", .str "Completed"),
         ("updated_at", .str now)])

/-! ## Batch tool (`toolbox.py`, `get_batch_tool_call_tool`)

The child tools are async functions that may raise; a raised exception is
modelled as `Except.error`.  The `args` of each child have already been
parsed (`parse_model_json_response_robust` returns a dict input as-is,
which is the case for tool calls produced by the LLM adapters). -/

/-- A child tool: its invocation either returns a value or raises. -/
abbrev ToolFn := Json → Except String Json

/-- One element of the `results` list: `{"tool_name": ..., "tool_args": ...,
"result": ...}` (note the source key is `tool_args`). -/
structure BatchEntry where
  tool_name : String
  tool_args : Json
  result : Json
deriving Repr

/-- What `batch_tool` returns: either the per-child `results` list, or — when
any iteration raises — the single error dict
`{"success": False, "error_messages": [str(e)], "traceback": ...}`. -/
inductive BatchOutcome where
  | ok (entries : List BatchEntry)
  | err (error_message : String)
deriving Repr

/-- `tool_name_2_function[tool_name]`: raises `KeyError` when the name is
not registered. -/
def lookupTool (registry : List (String × ToolFn)) (name : String) : Except String ToolFn :=
  match registry.find? (fun p => p.1 = name) with
  | some p => .ok p.2
  | none => .error ("KeyError: " ++ name)

/-- Loop of `batch_tool`.  The whole `for` loop sits inside one
`try/except`, so the first raise anywhere ends the batch with the error
dict.  The second component is the trace of child tools actually invoked,
in order. -/
def batchLoop (registry : List (String × ToolFn)) :
    List (String × Json) → List BatchEntry → List String → BatchOutcome × List String
  | [], acc, trace => (.ok acc, trace)
  | (name, args) :: rest, acc, trace =>
    match lookupTool registry name with
    | .error e => (.err e, trace)
    | .ok f =>
      match f args with
      | .error e => (.err e, trace ++ [name])
      | .ok r => batchLoop registry rest (acc ++ [⟨name, args, r⟩]) (trace ++ [name])

/-- `batch_tool(params)` after `MultiToolCallParams` validation: iterate
over `tool_calls` (pairs of name and args). -/
def batch_tool (registry : List (String × ToolFn)) (tool_calls : List (String × Json)) :
    BatchOutcome × List String :=
  batchLoop registry tool_calls [] []

/-- A child's outcome when dispatched alone: look the name up, then call. -/
def childResult (registry : List (String × ToolFn)) (c : String × Json) : Except String Json :=
  match lookupTool registry c.1 with
  | .error e => .error e
  | .ok f => f c.2

/-- Value of a successful `Except`, for stating the all-success case. -/
def okValue : Except String Json → Json
  | .ok r => r
  | .error _ => .null

/-! ## Anthropic response normalization (`agents/llm_consts.py`) and the
server-tool lookup (`agents/langgraph_utils.py`) -/

/-- A raw item of a `web_search_tool_result` block's `content` list;
`none` models an absent dict key. -/
structure WebContentBlock where
  type : Option String
  title : Option String
  url : Option String
deriving Repr

/-- A processed web-result item `{"type": ..., "title": ..., "url": ...}`. -/
structure WebResultItem where
  type : String
  title : String
  url : String
deriving Repr, DecidableEq

/-- An Anthropic content block, as the record of the dict keys
`_process_content` reads; `none` models an absent key so `block.get(k, d)`
becomes `getD`. -/
structure AnthropicBlock where
  type : String
  id : Option String
  name : Option String
  input : Json
  tool_use_id : Option String
  content : List WebContentBlock
  text : Option String
deriving Repr

/-- `llm_consts.ToolCall` as built by `_process_content`. -/
structure ToolCallRec where
  id : String
  name : String
  input : Json
  type : String
  server_executed : Bool
deriving Repr

/-- `llm_consts.ToolResult` as built for a `web_search_tool_result` block:
`content` is the processed item list, `type` the block type, and `id` the
block's `tool_use_id` ("ID of the tool call this result corresponds to"). -/
structure ToolResultRec where
  content : List WebResultItem
  type : String
  id : String
deriving Repr, DecidableEq

/-- Assignment `m[k] = v` on the `tool_results` dict. -/
def resSet (m : List (String × ToolResultRec)) (k : String) (v : ToolResultRec) :
    List (String × ToolResultRec) :=
  match m with
  | [] => [(k, v)]
  | (k', v') :: rest => if k' = k then (k, v) :: rest else (k', v') :: resSet rest k v

/-- Lookup in the `tool_results` dict. -/
def resGet (m : List (String × ToolResultRec)) (k : String) : Option ToolResultRec :=
  (m.find? (fun p => p.1 = k)).map (·.2)

/-- Accumulator state of `_process_content`: text parts, tool calls, and the
`tool_results` dict. -/
structure ProcessedResponse where
  text_parts : List String
  tool_calls : List ToolCallRec
  tool_results : List (String × ToolResultRec)
deriving Repr

/-- One iteration of the block loop in `AnthropicResponse._process_content`.
For a `web_search_tool_result` block the source computes
`id = block.get("tool_use_id", "")` and stores it in the `ToolResult`, but
keys the dict entry by `block.get("id", "")`:
`self.tool_results[block.get("id", "")] = tool_result`. -/
def processBlock (st : ProcessedResponse) (b : AnthropicBlock) : ProcessedResponse :=
  if b.type = "text" then
    { st with text_parts := st.text_parts ++ [b.text.getD ""] }
  else if b.type = "tool_use" then
    { st with tool_calls := st.tool_calls ++
        [⟨b.id.getD "", b.name.getD "", b.input, "tool_use", false⟩] }
  else if b.type = "server_tool_use" then
    { st with tool_calls := st.tool_calls ++
        [⟨b.id.getD "", b.name.getD "", b.input, "server_tool_use", true⟩] }
  else if b.type = "web_search_tool_result" then
    let id := b.tool_use_id.getD ""
    let content_processed := b.content.map
      (fun cb => (⟨cb.type.getD "", cb.title.getD "", cb.url.getD ""⟩ : WebResultItem))
    { st with tool_results :=
        resSet st.tool_results (b.id.getD "") ⟨content_processed, b.type, id⟩ }
  else st

/-- `AnthropicResponse._process_content` on a content-block list. -/
def anthropic_process_content (blocks : List AnthropicBlock) : ProcessedResponse :=
  blocks.foldl processBlock ⟨[], [], []⟩

/-- The concatenated `text_content`. -/
def ProcessedResponse.text_content (r : ProcessedResponse) : String :=
  r.text_parts.foldl (· ++ ·) ""

/-- JSON encoding of a processed web-result item, for the output dict of
`_handle_server_tool`. -/
def webItemToJson (w : WebResultItem) : Json :=
  .obj [("type", .str w.type), ("title", .str w.title), ("url", .str w.url)]

/-- `langgraph_utils._handle_server_tool`: looks the call's id up in
`state.server_tool_results`; a missing id yields an error message with
`is_error = true`, a hit yields the success dict with `is_error = false`. -/
def handle_server_tool (tc : ToolCallRec) (server_tool_results : List (String × ToolResultRec)) :
    Json × Bool :=
  match resGet server_tool_results tc.id with
  | none =>
      (.str ("Server-executed tool " ++ tc.name ++ " (ID: " ++ tc.id ++ ") results not found."),
       true)
  | some r =>
      (.obj [("result", .arr (r.content.map webItemToJson)),
             ("status", .str "success"),
             ("server_executed", .bool true),
             ("instructions", .str ("Tool " ++ tc.name ++ " executed by the server."))],
       false)

/-! ## LLM retry loop (`agents/langgraph_utils.py`, `query_llm_get_new_state`)

The loop is embedded as a function of the per-attempt outcomes: attempt `i`
either succeeds or raises an error carrying an optional provider status
code and a message.  The result records how the loop ended, how many
attempts ran, and the backoffs slept, in order. -/

/-- Outcome of one `llm_client.ainvoke` attempt. -/
inductive LLMOutcome where
  | success
  | failure (status_code : Option Nat) (msg : String)
deriving Repr, DecidableEq

/-- `retryable_status_codes = [429, 503, 502, 500, 529]`. -/
def retryableStatusCodes : List Nat := [429, 503, 502, 500, 529]

/-- `retryable_indicators` matched against `error_str.lower()`. -/
def retryableIndicators : List String :=
  ["overloaded", "529", "503", "rate limit", "429", "overloaded_error"]

/-- `error_str.lower()` as a character list. -/
def lowerChars (s : String) : List Char := s.data.map Char.toLower

/-- Python `pat in s` (substring containment). -/
def containsSub (s pat : List Char) : Bool :=
  (List.range (s.length + 1)).any (fun i => pat.isPrefixOf (s.drop i))

/-- Python truthiness of the extracted `status_code` (`None` and `0` are
falsy; network errors may attach `status_code = 0`). -/
def truthyCode : Option Nat → Bool
  | none => false
  | some c => c != 0

/-- The retryability decision: with a truthy status code, membership in the
retryable codes; otherwise fall back to matching the indicators against the
lowercased message. -/
def is_retryable (status_code : Option Nat) (msg : String) : Bool :=
  if truthyCode status_code then
    retryableStatusCodes.contains (status_code.getD 0)
  else
    retryableIndicators.any (fun ind => containsSub (lowerChars msg) ind.data)

/-- Whether an attempt outcome is an error the loop treats as retryable. -/
def isRetryableFailure : LLMOutcome → Bool
  | .success => false
  | .failure c m => is_retryable c m

/-- Whether an attempt outcome is an error the loop treats as
non-retryable. -/
def isNonRetryableFailure : LLMOutcome → Bool
  | .success => false
  | .failure c m => !(is_retryable c m)

/-- How the retry loop ended. -/
inductive RetryKind where
  | ok
  | fatal (msg : String)
  | reraise (msg : String)
  | fellThrough
deriving Repr, DecidableEq

/-- Result of the retry loop: how it ended, the number of attempts
executed, and the backoffs slept in order. -/
structure RetryResult where
  kind : RetryKind
  attempts : Nat
  sleeps : List Nat
deriving Repr, DecidableEq

/-- The message of the exhaustion exception. -/
def fatalMsg (maxAttempts : Nat) (last : String) : String :=
  "Failed to get LLM response after " ++ toString maxAttempts ++
    " attempts. Last error: " ++ last ++ ". Check API key, rate limits, and billing."

/-- `if attempt > 0: backoff_seconds = min(2 ** (attempt - 1), max_backoff);
await asyncio.sleep(backoff_seconds)` — the sleeps performed so far with
the current attempt's backoff appended. -/
def nextSleeps (maxBackoff attempt : Nat) (sleeps : List Nat) : List Nat :=
  if 0 < attempt then sleeps ++ [min (2 ^ (attempt - 1)) maxBackoff] else sleeps

/-- The `for attempt in range(max_attempts)` loop.  Before attempt `i > 0`
it sleeps `min(2 ** (i - 1), max_backoff)`.  On an exception: the last
attempt raises the fatal exhaustion error; a retryable error continues; a
non-retryable error continues when it hit the very first attempt and
re-raises otherwise.  `fellThrough` is the loop running out of iterations
(only possible when `max_attempts = 0`, where the Python function returns
`None`). -/
def queryLoop (outcomes : Nat → LLMOutcome) (maxAttempts maxBackoff : Nat) :
    Nat → Nat → List Nat → RetryResult
  | 0, attempt, sleeps => ⟨.fellThrough, attempt, sleeps⟩
  | fuel + 1, attempt, sleeps =>
    match outcomes attempt with
    | .success => ⟨.ok, attempt + 1, nextSleeps maxBackoff attempt sleeps⟩
    | .failure code msg =>
      if attempt = maxAttempts - 1 then
        ⟨.fatal (fatalMsg maxAttempts msg), attempt + 1, nextSleeps maxBackoff attempt sleeps⟩
      else if is_retryable code msg then
        queryLoop outcomes maxAttempts maxBackoff fuel (attempt + 1)
          (nextSleeps maxBackoff attempt sleeps)
      else if 0 < attempt then
        ⟨.reraise msg, attempt + 1, nextSleeps maxBackoff attempt sleeps⟩
      else queryLoop outcomes maxAttempts maxBackoff fuel (attempt + 1)
        (nextSleeps maxBackoff attempt sleeps)

/-- `query_llm_get_new_state` retry behaviour with the source defaults
`max_attempts = 20`, `max_backoff = 300`, starting at attempt 0. -/
def query_llm_retry (outcomes : Nat → LLMOutcome) (maxAttempts maxBackoff : Nat) : RetryResult :=
  queryLoop outcomes maxAttempts maxBackoff maxAttempts 0 []

/-! ## Messages, truncation (`truncate_conversation_history`) and
termination detection (`_check_for_task_completion`, `should_continue`) -/

/-- A content block of a user message, as read by the completion check:
its `type`, and the result of `json.loads(content_block.get("content", ""))`
— `none` when the key is absent or the text does not parse
(`JSONDecodeError`/`TypeError`). -/
structure ContentBlock where
  type : String
  content : Option Json
deriving Repr

/-- Message content: plain text, or a list of content blocks. -/
inductive MsgContent where
  | text (s : String)
  | blocks (bs : List ContentBlock)
deriving Repr

/-- A conversation message. -/
structure Msg where
  role : String
  content : MsgContent
deriving Repr

/-- Python `l[-k:]` (for `k = 0` this is the whole list). -/
def pyTail {α} (k : Nat) (l : List α) : List α :=
  if k = 0 then l else l.drop (l.length - k)

/-- Python `l[:-k]` (for `k = 0` this is the empty list). -/
def pyDropTail {α} (k : Nat) (l : List α) : List α :=
  if k = 0 then [] else l.take (l.length - k)

/-- The truncation notice user message inserted when older cycles are
dropped. -/
def truncation_notice (numTruncated numKept : Nat) : Msg :=
  ⟨"user", .text ("[System Notice: Truncated " ++ toString numTruncated ++
    " older messages to preserve context length. Kept " ++ toString numKept ++
    " recent interaction cycles. Use analysis of recent interactions to gain context about prior work.]")⟩

/-- `truncate_conversation_history(full_messages, max_call_stack)`. -/
def truncate_conversation_history (full_messages : List Msg) (max_call_stack : Nat) : List Msg :=
  if full_messages.length ≤ 2 then full_messages
  else
    match full_messages with
    | sys :: user_input :: conversation =>
      let incomplete_cycle := conversation.length % 2 ≠ 0
      let complete_cycles := conversation.length / 2
      if complete_cycles ≤ max_call_stack then full_messages
      else
        let messages_to_keep0 :=
          if incomplete_cycle then max_call_stack * 2 + 1 else max_call_stack * 2
        let messages_to_keep := min messages_to_keep0 conversation.length
        let non_truncated := pyTail messages_to_keep conversation
        let truncated := pyDropTail messages_to_keep conversation
        [sys, user_input, truncation_notice truncated.length (non_truncated.length / 2)]
          ++ non_truncated
    | _ => full_messages

/-- The new state's `messages` after an LLM call
(`query_llm_get_new_state`): the full history plus the new assistant
message — the truncated list is used only as LLM input. -/
def new_state_messages (full_messages : List Msg) (assistant_message : Msg) : List Msg :=
  full_messages ++ [assistant_message]

/-- Python `messages[-n:]`. -/
def lastN {α} (n : Nat) (l : List α) : List α := l.drop (l.length - n)

/-- Whether one content block is a `tool_result` whose content parses to a
dict with a truthy `end_task` (`result_data.get("end_task", False)`). -/
def block_signals_end (b : ContentBlock) : Bool :=
  b.type = "tool_result" &&
  match b.content with
  | some (Json.obj kvs) => ((alistGet kvs "end_task").getD (Json.bool false)).truthy
  | _ => false

/-- Whether a message is a user message with a block list containing such a
`tool_result`. -/
def message_signals_completion (m : Msg) : Bool :=
  m.role = "user" &&
  match m.content with
  | .blocks bs => bs.any block_signals_end
  | .text _ => false

/-- `_check_for_task_completion(messages)`: scan the last 5 messages (in
reverse) for a completion signal. -/
def check_for_task_completion (messages : List Msg) : Bool :=
  ((lastN 5 messages).reverse).any message_signals_completion

/-- `should_continue(state)`: more tool calls → `"tool_executor"`,
completion signal → `END`, else `"agent"`.  LangGraph's `END` sentinel is
rendered as the string `"END"`. -/
def should_continue (tool_calls : List ToolCallRec) (messages : List Msg) : String :=
  if !tool_calls.isEmpty then "tool_executor"
  else if check_for_task_completion messages then "END"
  else "agent"

/-! ## Claim C1 -/

theorem preGenFold_fst (ts : Nat) (run : String) (l : List Nat) :
    ∀ (acc : List GeneratedId) (tbl : List SubtaskRow),
      (l.foldl (preGenStep ts run) (acc, tbl)).1 = acc ++ l.map (mkGeneratedId ts) := by
  induction l with
  | nil => intro acc tbl; simp
  | cons i is ih =>
    intro acc tbl
    simp only [List.foldl_cons, preGenStep]
    rw [ih]
    simp

theorem preGenFold_snd (ts : Nat) (run : String) (l : List Nat) :
    ∀ (acc : List GeneratedId) (tbl : List SubtaskRow),
      (l.foldl (preGenStep ts run) (acc, tbl)).2
        = l.foldl (fun t i => upsertSubtaskRow t (mkSubtaskRow ts run i)) tbl := by
  induction l with
  | nil => intro acc tbl; rfl
  | cons i is ih =>
    intro acc tbl
    simp only [List.foldl_cons, preGenStep]
    rw [ih]

/-- The table effect of the loop alone. -/
def upsertFold (ts : Nat) (run : String) (idxs : List Nat) (tbl : List SubtaskRow) :
    List SubtaskRow :=
  idxs.foldl (fun t i => upsertSubtaskRow t (mkSubtaskRow ts run i)) tbl

theorem upsertFold_filter (ts : Nat) (run : String) (idxs : List Nat) :
    ∀ (tbl : List SubtaskRow), idxs.Nodup →
      (upsertFold ts run idxs tbl).filter (fun r => r.fullstack_run_id = run)
        = (tbl.filter (fun r => r.fullstack_run_id = run)).filter
            (fun r => !(decide (r.subtask_index ∈ idxs)))
          ++ idxs.map (mkSubtaskRow ts run) := by
  induction idxs with
  | nil =>
    intro tbl _
    simp [upsertFold]
  | cons i is ih =>
    intro tbl hnd
    have hi : i ∉ is := (List.nodup_cons.mp hnd).1
    have his : is.Nodup := (List.nodup_cons.mp hnd).2
    have hstep : upsertFold ts run (i :: is) tbl
        = upsertFold ts run is (upsertSubtaskRow tbl (mkSubtaskRow ts run i)) := rfl
    rw [hstep, ih _ his, upsertSubtaskRow, List.filter_append, List.filter_append]
    simp only [List.filter_filter, List.map_cons]
    rw [List.append_assoc]
    have hrow : List.filter
        (fun a => !decide (a.subtask_index ∈ is) && decide (a.fullstack_run_id = run))
        [mkSubtaskRow ts run i] = [mkSubtaskRow ts run i] := by
      simp [List.filter, mkSubtaskRow, hi]
    rw [hrow]
    have hcons : mkSubtaskRow ts run i :: List.map (mkSubtaskRow ts run) is
        = [mkSubtaskRow ts run i] ++ List.map (mkSubtaskRow ts run) is := rfl
    rw [hcons]
    congr 1
    apply List.filter_congr
    intro q _
    by_cases hrun : q.fullstack_run_id = run <;>
      by_cases hidx : q.subtask_index = i <;>
        by_cases hmem : q.subtask_index ∈ is <;>
          simp [mkSubtaskRow, hrun, hidx, hmem]

theorem insertByIdx_head_le (r q : SubtaskRow) (qs : List SubtaskRow)
    (h : r.subtask_index ≤ q.subtask_index) :
    insertByIdx r (q :: qs) = r :: q :: qs := by
  simp [insertByIdx, h]

theorem sortByIdx_of_pairwise (l : List SubtaskRow) :
    l.Pairwise (fun a b => a.subtask_index ≤ b.subtask_index) → sortByIdx l = l := by
  induction l with
  | nil => intro _; rfl
  | cons r rs ih =>
    intro h
    have hp := List.pairwise_cons.mp h
    rw [sortByIdx, ih hp.2]
    cases rs with
    | nil => rfl
    | cons q qs => exact insertByIdx_head_le r q qs (hp.1 q (by simp))

theorem rangeRows_pairwise (ts : Nat) (run : String) (n : Nat) :
    ((List.range n).map (mkSubtaskRow ts run)).Pairwise
      (fun a b => a.subtask_index ≤ b.subtask_index) := by
  rw [List.pairwise_map]
  exact (List.pairwise_lt_range n).imp (fun h => Nat.le_of_lt h)

theorem get_subtask_ids_of_filter (ts : Nat) (run : String) (n : Nat)
    (tbl : List SubtaskRow)
    (h : tbl.filter (fun r => r.fullstack_run_id = run)
        = (List.range n).map (mkSubtaskRow ts run)) :
    get_subtask_ids run tbl = (List.range n).map (mkGeneratedId ts) := by
  unfold get_subtask_ids
  rw [h, sortByIdx_of_pairwise _ (rangeRows_pairwise ts run n), List.map_map]
  rfl

/-- C1 counterexample: the generated ids embed the epoch second of the call
(`int(time.time())`), so a second `pre_generate_subtask_ids("fs", 1)` one
second later returns `pm_subtask_1_0` while the first returned
`pm_subtask_0_0` — the claimed idempotence fails. -/
theorem pre_generate_not_idempotent_counterexample :
    (pre_generate_subtask_ids 0 "fs" 1 []).1.map GeneratedId.subtask_id = ["pm_subtask_0_0"]
    ∧ (pre_generate_subtask_ids 1 "fs" 1
        (pre_generate_subtask_ids 0 "fs" 1 []).2).1.map GeneratedId.subtask_id
        = ["pm_subtask_1_0"]
    ∧ (pre_generate_subtask_ids 1 "fs" 1 (pre_generate_subtask_ids 0 "fs" 1 []).2).1
        ≠ (pre_generate_subtask_ids 0 "fs" 1 []).1 :=
  ⟨rfl, rfl, by decide⟩

/-- C1 (amended): starting from a store with no rows for
`fullstack_run_id`, `pre_generate_subtask_ids(fullstack_run_id, n)` stores
exactly `n` rows keyed contiguously by `subtask_index` `0..n-1`, each id of
the form `pm_subtask_{epoch_seconds}_{index}` with the epoch second of the
call, and returns that list; a second call *at the same epoch second*
returns the same list of ids and leaves the stored rows unchanged
(idempotence holds only within one epoch second — a later call replaces
the rows with fresh-timestamped ids). -/
theorem pre_generate_contiguous_and_second_call_same_second
    (ts : Nat) (run : String) (n : Nat) (tbl : List SubtaskRow)
    (hclean : tbl.filter (fun r => r.fullstack_run_id = run) = []) :
    (pre_generate_subtask_ids ts run n tbl).1 = (List.range n).map (mkGeneratedId ts)
    ∧ get_subtask_ids run (pre_generate_subtask_ids ts run n tbl).2
        = (List.range n).map (mkGeneratedId ts)
    ∧ (pre_generate_subtask_ids ts run n (pre_generate_subtask_ids ts run n tbl).2).1
        = (pre_generate_subtask_ids ts run n tbl).1
    ∧ get_subtask_ids run
        (pre_generate_subtask_ids ts run n (pre_generate_subtask_ids ts run n tbl).2).2
        = get_subtask_ids run (pre_generate_subtask_ids ts run n tbl).2 := by
  have hfst : ∀ t : List SubtaskRow,
      (pre_generate_subtask_ids ts run n t).1 = (List.range n).map (mkGeneratedId ts) := by
    intro t
    have := preGenFold_fst ts run (List.range n) [] t
    simpa [pre_generate_subtask_ids] using this
  have hsnd : ∀ t : List SubtaskRow,
      (pre_generate_subtask_ids ts run n t).2 = upsertFold ts run (List.range n) t := by
    intro t
    exact preGenFold_snd ts run (List.range n) [] t
  have hfilter1 : (pre_generate_subtask_ids ts run n tbl).2.filter
      (fun r => r.fullstack_run_id = run) = (List.range n).map (mkSubtaskRow ts run) := by
    rw [hsnd, upsertFold_filter ts run (List.range n) tbl (List.nodup_range n), hclean]
    simp
  have hfilter2 : (pre_generate_subtask_ids ts run n
      (pre_generate_subtask_ids ts run n tbl).2).2.filter
        (fun r => r.fullstack_run_id = run) = (List.range n).map (mkSubtaskRow ts run) := by
    rw [hsnd, upsertFold_filter ts run (List.range n) _ (List.nodup_range n), hfilter1]
    have : ((List.range n).map (mkSubtaskRow ts run)).filter
        (fun r => !(decide (r.subtask_index ∈ List.range n))) = [] := by
      rw [List.filter_eq_nil_iff]
      intro a ha
      obtain ⟨i, hi, rfl⟩ := List.mem_map.mp ha
      simp [mkSubtaskRow, List.mem_range.mp hi]
    rw [this, List.nil_append]
  exact ⟨hfst tbl,
    get_subtask_ids_of_filter ts run n _ hfilter1,
    by rw [hfst, hfst],
    by rw [get_subtask_ids_of_filter ts run n _ hfilter2,
      get_subtask_ids_of_filter ts run n _ hfilter1]⟩

/-- C1 witness: a concrete application of the amended theorem (clean store,
two subtasks, epoch second 7). -/
theorem pre_generate_witness :
    (pre_generate_subtask_ids 7 "fs_run" 2 []).1 = (List.range 2).map (mkGeneratedId 7)
    ∧ get_subtask_ids "fs_run" (pre_generate_subtask_ids 7 "fs_run" 2 []).2
        = (List.range 2).map (mkGeneratedId 7)
    ∧ (pre_generate_subtask_ids 7 "fs_run" 2 (pre_generate_subtask_ids 7 "fs_run" 2 []).2).1
        = (pre_generate_subtask_ids 7 "fs_run" 2 []).1
    ∧ get_subtask_ids "fs_run"
        (pre_generate_subtask_ids 7 "fs_run" 2
          (pre_generate_subtask_ids 7 "fs_run" 2 []).2).2
        = get_subtask_ids "fs_run" (pre_generate_subtask_ids 7 "fs_run" 2 []).2 :=
  pre_generate_contiguous_and_second_call_same_second 7 "fs_run" 2 [] rfl

/-! ## Claim C3 -/

/-- C3: every mutating operation of `PersistentDict` is claimed to schedule
a flush, in particular a `setdefault` that inserts a new key.  The source's
guard `if key not in self or self[key] != default:` runs *after*
`super().setdefault` has already inserted the key, so for a fresh key it
sees `self[key] == default` and skips `_schedule_save()` — contradicting
the adjacent comment "Only save if we actually added a new key".  At the
failing input (empty dict, `setdefault("k", 1)`) the key is inserted and
the returned schedule flag is `false`, while `__setitem__` does schedule. -/
theorem setdefault_new_key_skips_save :
    pdict_setdefault [] "k" (Json.num 1) = ([("k", Json.num 1)], Json.num 1, false)
    ∧ (pdict_setitem [] "k" (Json.num 1)).2 = true := by
  refine ⟨?_, rfl⟩
  simp [pdict_setdefault, alistHas, alistGet, List.find?, Json.beq]

/-! ## Claim C5 -/

/-- C5 counterexample: `add_run_id_to_task` with a `run_id` already present
appends it again — the stored list becomes `["r1", "r1"]`, not the claimed
unchanged `["r1"]`. -/
theorem add_run_id_duplicate_counterexample :
    get_task_run_ids (add_run_id_to_task [⟨"t", Json.obj [], ["r1"]⟩] "t" "r1") "t"
      = ["r1", "r1"]
    ∧ (["r1", "r1"] : List String) ≠ ["r1"] :=
  ⟨rfl, by decide⟩

/-- C5 (amended): `add_run_id_to_task(task_id, run_id)` appends `run_id` at
the end of the task's `run_ids`, preserving insertion order; a repeated
`run_id` is appended again (the source has no membership check, so repeats
accumulate). -/
theorem add_run_id_appends (tbl : List ActiveTaskRow) (task_id run_id : String)
    (h : (tbl.find? (fun r => r.task_id = task_id)).isSome) :
    get_task_run_ids (add_run_id_to_task tbl task_id run_id) task_id
      = get_task_run_ids tbl task_id ++ [run_id] := by
  induction tbl with
  | nil => simp [List.find?] at h
  | cons r rest ih =>
    by_cases hr : r.task_id = task_id
    · simp [add_run_id_to_task, get_task_run_ids, List.find?_cons, hr]
    · have h' : (rest.find? (fun q => q.task_id = task_id)).isSome := by
        simpa [List.find?_cons, hr] using h
      have := ih h'
      simpa [add_run_id_to_task, get_task_run_ids, List.find?_cons, hr]
        using this

/-- C5 witness: a concrete application of `add_run_id_appends`. -/
theorem add_run_id_appends_witness :
    get_task_run_ids (add_run_id_to_task [⟨"task_7", Json.obj [], ["a"]⟩] "task_7" "b") "task_7"
      = ["a"] ++ ["b"] :=
  add_run_id_appends [⟨"task_7", Json.obj [], ["a"]⟩] "task_7" "b" (by decide)

/-! ## Claim C10 -/

/-- C10: `load_log` on a `(run_id, agent_type)` pair with no stored row
returns the empty dict (never `None`, never an error), and
`AgentLogger._setup_log_document` therefore takes the same
fresh-initialization branch for a missing log as for a stored empty log. -/
theorem load_log_missing_empty (tbl : List LogRow) (run_id agent_type task_id now : String)
    (h : tbl.find? (fun r => r.run_id = run_id ∧ r.agent_type = agent_type) = none) :
    load_log tbl run_id agent_type = Json.obj []
    ∧ setup_log_document (load_log tbl run_id agent_type) task_id run_id now
        = initialLogData task_id run_id now
    ∧ setup_log_document (load_log tbl run_id agent_type) task_id run_id now
        = setup_log_document
            (load_log [⟨task_id, run_id, agent_type, Json.obj []⟩] run_id agent_type)
            task_id run_id now := by
  have hload : load_log tbl run_id agent_type = Json.obj [] := by
    unfold load_log
    rw [h]
  have hempty : load_log [⟨task_id, run_id, agent_type, Json.obj []⟩] run_id agent_type
      = Json.obj [] := by
    simp [load_log, List.find?]
  refine ⟨hload, ?_, ?_⟩
  · rw [hload]; rfl
  · rw [hload, hempty]

/-- C10 witness: the empty table has no row for `("run_1", "agent_logger")`. -/
theorem load_log_missing_empty_witness :
    load_log [] "run_1" "agent_logger" = Json.obj []
    ∧ setup_log_document (load_log [] "run_1" "agent_logger") "task_1" "run_1" "now"
        = initialLogData "task_1" "run_1" "now"
    ∧ setup_log_document (load_log [] "run_1" "agent_logger") "task_1" "run_1" "now"
        = setup_log_document
            (load_log [⟨"task_1", "run_1", "agent_logger", Json.obj []⟩] "run_1" "agent_logger")
            "task_1" "run_1" "now" :=
  load_log_missing_empty [] "run_1" "agent_logger" "task_1" "now" rfl

/-! ## Claim C2 -/

/-- A concrete validated `SWEResponse` dump, as in the spec's Engineer
scenario. -/
def sweOutput₀ : List (String × Json) :=
  [("summary_of_changes", .str "add /ping endpoint"),
   ("files_modified", .arr [.str "svc/routes.py"]),
   ("verification_status", .bool true),
   ("error_messages", .arr [])]

/-- The `generate_output` tool's return value for that dump. -/
def genOut₀ : List (String × Json) :=
  generate_output_swe sweOutput₀ "feat/ping" "cairn-dev" "svc"

/-- The last `tool_outputs` entry of the run. -/
def entry₀ : ToolOutputEntry :=
  ⟨"generate_output", "toolu_1", Json.obj [], Json.obj genOut₀, false⟩

/-- C2 counterexample: on normal completion `wrapper` stores
`final_state['tool_outputs'][-1]['tool_output']` verbatim; `generate_output`
set `end_task = True` on it and the wrapper does not clear it (only the
`delegate_task` tool does), so the final stored `agent_output` carries
`end_task = true` — refuting "the final stored agent_output never carries
end_task=true". -/
theorem wrapper_keeps_end_task_counterexample :
    (wrapper_complete [("run_id", .str "swe_run_1")] [entry₀] "2025-06-04 12:00:00").bind
        (fun p => alistGet p "agent_output")
      = some (Json.obj genOut₀)
    ∧ alistGet genOut₀ "end_task" = some (Json.bool true) :=
  ⟨rfl, rfl⟩

/-- C2 (amended): on normal completion the wrapper sets the payload's
`agent_output` to the last entry of `tool_outputs` *unchanged* — its
`end_task` flag is retained, not cleared — and sets `agent_status` to
`Completed` and `updated_at` to the current time. -/
theorem wrapper_completion_stores_last_output_verbatim
    (payload : List (String × Json)) (outs : List ToolOutputEntry) (now : String)
    (e : ToolOutputEntry) (h : outs.getLast? = some e) :
    ∃ p', wrapper_complete payload outs now = some p'
      ∧ alistGet p' "agent_output" = some e.tool_output
      ∧ alistGet p' "agent_status" = some (.str "Completed")
      ∧ alistGet p' "updated_at" = some (.str now) := by
  refine ⟨alistSetMany payload
    [("agent_output", e.tool_output),
     ("agent_status", .str "Completed"),
     ("updated_at", .str now)], ?_, ?_, ?_, ?_⟩
  · simp [wrapper_complete, h]
  · show alistGet (alistSet (alistSet (alistSet payload "agent_output" e.tool_output)
      "agent_status" (.str "Completed")) "updated_at" (.str now)) "agent_output" = _
    rw [alistGet_alistSet_other _ _ _ _ (by decide),
      alistGet_alistSet_other _ _ _ _ (by decide), alistGet_alistSet_self]
  · show alistGet (alistSet (alistSet (alistSet payload "agent_output" e.tool_output)
      "agent_status" (.str "Completed")) "updated_at" (.str now)) "agent_status" = _
    rw [alistGet_alistSet_other _ _ _ _ (by decide), alistGet_alistSet_self]
  · show alistGet (alistSet (alistSet (alistSet payload "agent_output" e.tool_output)
      "agent_status" (.str "Completed")) "updated_at" (.str now)) "updated_at" = _
    rw [alistGet_alistSet_self]

/-- C2 witness: a concrete application of the amended theorem. -/
theorem wrapper_completion_witness :
    ∃ p', wrapper_complete [] [⟨"generate_output", "t1", Json.obj [], Json.str "out", false⟩] "now"
        = some p'
      ∧ alistGet p' "agent_output" = some (Json.str "out")
      ∧ alistGet p' "agent_status" = some (.str "Completed")
      ∧ alistGet p' "updated_at" = some (.str "now") :=
  wrapper_completion_stores_last_output_verbatim [] _ "now"
    ⟨"generate_output", "t1", Json.obj [], Json.str "out", false⟩ rfl

/-! ## Claim C4 -/

/-- Whether the batch returned the per-child list (vs the error dict). -/
def BatchOutcome.isOk : BatchOutcome → Bool
  | .ok _ => true
  | .err _ => false

/-- A registry where `edit_file` raises. -/
def registry₀ : List (String × ToolFn) :=
  [("read_file", fun _ => .ok (.str "contents")),
   ("edit_file", fun _ => .error "ValueError: bad patch")]

/-- A registry with a single succeeding tool. -/
def registry₁ : List (String × ToolFn) :=
  [("read_file", fun _ => .ok (.str "contents"))]

/-- C4 counterexample: a batch `[edit_file, read_file]` whose first child
raises returns the single `{"success": False, ...}` error dict — not a list
with one `{tool_name, args, result}` entry per child — and `read_file` is
never invoked (the invocation trace is `["edit_file"]` only): the
`try/except` in `batch_tool` wraps the whole loop, so a child error aborts
the batch. -/
theorem batch_tool_abort_counterexample :
    batch_tool registry₀ [("edit_file", Json.obj []), ("read_file", Json.obj [])]
      = (.err "ValueError: bad patch", ["edit_file"])
    ∧ (batch_tool registry₀
        [("edit_file", Json.obj []), ("read_file", Json.obj [])]).1.isOk = false :=
  ⟨rfl, rfl⟩

theorem batchLoop_cons_keyerror (registry : List (String × ToolFn))
    (name : String) (args : Json) (rest : List (String × Json))
    (acc : List BatchEntry) (trace : List String) (e : String)
    (hl : lookupTool registry name = .error e) :
    batchLoop registry ((name, args) :: rest) acc trace = (.err e, trace) := by
  simp [batchLoop, hl]

theorem batchLoop_cons_raise (registry : List (String × ToolFn))
    (name : String) (args : Json) (rest : List (String × Json))
    (acc : List BatchEntry) (trace : List String) (f : ToolFn) (e : String)
    (hl : lookupTool registry name = .ok f) (hf : f args = .error e) :
    batchLoop registry ((name, args) :: rest) acc trace = (.err e, trace ++ [name]) := by
  simp [batchLoop, hl, hf]

theorem batchLoop_cons_ok (registry : List (String × ToolFn))
    (name : String) (args : Json) (rest : List (String × Json))
    (acc : List BatchEntry) (trace : List String) (f : ToolFn) (r : Json)
    (hl : lookupTool registry name = .ok f) (hf : f args = .ok r) :
    batchLoop registry ((name, args) :: rest) acc trace
      = batchLoop registry rest (acc ++ [BatchEntry.mk name args r]) (trace ++ [name]) := by
  simp [batchLoop, hl, hf]

theorem batchLoop_all_ok (registry : List (String × ToolFn)) (calls : List (String × Json)) :
    ∀ (acc : List BatchEntry) (trace : List String),
      (∀ c ∈ calls, ∃ r, childResult registry c = .ok r) →
      batchLoop registry calls acc trace
        = (.ok (acc ++ calls.map
            (fun c => ⟨c.1, c.2, okValue (childResult registry c)⟩)),
           trace ++ calls.map Prod.fst) := by
  induction calls with
  | nil => intro acc trace _; simp [batchLoop]
  | cons c rest ih =>
    intro acc trace h
    obtain ⟨name, args⟩ := c
    obtain ⟨r, hr⟩ := h (name, args) (by simp)
    cases hl : lookupTool registry name with
    | error e =>
      rw [childResult] at hr
      simp only [hl] at hr
      exact Except.noConfusion hr
    | ok f =>
      have hf : f args = .ok r := by
        rw [childResult] at hr
        simpa only [hl] using hr
      have hcr : childResult registry (name, args) = .ok r := hr
      rw [batchLoop_cons_ok registry name args rest acc trace f r hl hf,
        ih _ _ (fun c' hc' => h c' (by simp [hc']))]
      simp [hcr, okValue]

theorem batchLoop_first_error (registry : List (String × ToolFn))
    (c : String × Json) (post : List (String × Json)) (e : String)
    (hc : childResult registry c = .error e) (pre : List (String × Json)) :
    ∀ (acc : List BatchEntry) (trace : List String),
      (∀ c' ∈ pre, ∃ r, childResult registry c' = .ok r) →
      ∃ tr, batchLoop registry (pre ++ c :: post) acc trace = (.err e, tr)
        ∧ (tr = trace ++ pre.map Prod.fst ∨ tr = trace ++ pre.map Prod.fst ++ [c.1]) := by
  induction pre with
  | nil =>
    intro acc trace _
    obtain ⟨name, args⟩ := c
    cases hl : lookupTool registry name with
    | error e₀ =>
      have he : e₀ = e := by
        rw [childResult] at hc
        simp only [hl] at hc
        exact (Except.error.injEq _ _).mp hc
      subst he
      exact ⟨trace, batchLoop_cons_keyerror registry name args post acc trace e₀ hl,
        Or.inl (by simp)⟩
    | ok f =>
      have hf : f args = .error e := by
        rw [childResult] at hc
        simpa only [hl] using hc
      exact ⟨trace ++ [name],
        batchLoop_cons_raise registry name args post acc trace f e hl hf,
        Or.inr (by simp)⟩
  | cons p pre' ih =>
    intro acc trace h
    obtain ⟨name, args⟩ := p
    obtain ⟨r, hr⟩ := h (name, args) (by simp)
    cases hl : lookupTool registry name with
    | error e₀ =>
      rw [childResult] at hr
      simp only [hl] at hr
      exact Except.noConfusion hr
    | ok f =>
      have hf : f args = .ok r := by
        rw [childResult] at hr
        simpa only [hl] using hr
      have hstep := batchLoop_cons_ok registry name args (pre' ++ c :: post)
        acc trace f r hl hf
      rw [List.cons_append, hstep]
      obtain ⟨tr, htr, hcases⟩ :=
        ih (acc ++ [BatchEntry.mk name args r]) (trace ++ [name])
          (fun c' hc' => h c' (by simp [hc']))
      refine ⟨tr, htr, ?_⟩
      rcases hcases with h1 | h1
      · exact Or.inl (by simp [h1])
      · exact Or.inr (by simp [h1])

/-- C4 (amended): the batch tool invokes children in sequence *until the
first error*.  When every child succeeds it returns one
`{tool_name, tool_args, result}` entry per child, in order, having invoked
each child once; when some child raises (all earlier ones succeeding), the
whole batch aborts with the single error dict carrying that child's error,
and the children after it are never invoked. -/
theorem batch_tool_per_child_until_error (registry : List (String × ToolFn))
    (calls : List (String × Json)) :
    ((∀ c ∈ calls, ∃ r, childResult registry c = .ok r) →
      batch_tool registry calls
        = (.ok (calls.map (fun c => ⟨c.1, c.2, okValue (childResult registry c)⟩)),
           calls.map Prod.fst))
    ∧ (∀ (pre : List (String × Json)) (c : String × Json) (post : List (String × Json))
        (e : String), calls = pre ++ c :: post →
        (∀ c' ∈ pre, ∃ r, childResult registry c' = .ok r) →
        childResult registry c = .error e →
        ∃ tr, batch_tool registry calls = (.err e, tr)
          ∧ (tr = pre.map Prod.fst ∨ tr = pre.map Prod.fst ++ [c.1])) := by
  constructor
  · intro h
    have := batchLoop_all_ok registry calls [] [] h
    simpa [batch_tool] using this
  · intro pre c post e hsplit hpre hc
    subst hsplit
    obtain ⟨tr, htr, hcases⟩ := batchLoop_first_error registry c post e hc pre [] [] hpre
    refine ⟨tr, ?_, ?_⟩
    · simpa [batch_tool] using htr
    · simpa using hcases

/-- C4 witness: both halves of the amended theorem at concrete batches. -/
theorem batch_tool_per_child_witness :
    batch_tool registry₁ [("read_file", Json.obj [])]
      = (.ok ([("read_file", Json.obj [])].map
          (fun c => ⟨c.1, c.2, okValue (childResult registry₁ c)⟩)),
         [("read_file", Json.obj [])].map Prod.fst)
    ∧ ∃ tr, batch_tool registry₀ [("read_file", Json.obj []), ("edit_file", Json.obj [])]
        = (.err "ValueError: bad patch", tr)
      ∧ (tr = [("read_file", Json.obj [])].map Prod.fst
         ∨ tr = [("read_file", Json.obj [])].map Prod.fst ++ ["edit_file"]) := by
  constructor
  · exact (batch_tool_per_child_until_error registry₁ _).1
      (by rintro c hc; rw [List.mem_singleton] at hc; subst hc
          exact ⟨.str "contents", rfl⟩)
  · exact (batch_tool_per_child_until_error registry₀ _).2
      [("read_file", Json.obj [])] ("edit_file", Json.obj []) [] "ValueError: bad patch"
      rfl
      (by rintro c hc; rw [List.mem_singleton] at hc; subst hc
          exact ⟨.str "contents", rfl⟩)
      rfl

/-! ## Claim C6 -/

/-- A response with a server tool call and its web-search result, in
Anthropic's wire shape: the result block references the call through
`tool_use_id` and has no `id` key of its own. -/
def blocks₀ : List AnthropicBlock :=
  [⟨"server_tool_use", some "srv1", some "web_search",
    .obj [("query", .str "lean4")], none, [], none⟩,
   ⟨"web_search_tool_result", none, none, .obj [], some "srv1",
    [⟨some "web_search_result", some "Lean", some "https://lean-lang.org"⟩], none⟩]

/-- C6: the claim (and the class docstring "maps the id of the tool call to
the result") requires the web-search result to be keyed by the block's
`tool_use_id` (`"srv1"`) so that `server_tool_results[tool_call.id]`
succeeds during tool execution.  The source instead keys it by
`block.get("id", "")` — absent on result blocks — so the entry lands under
`""`, the lookup for `"srv1"` misses, and `_handle_server_tool` records an
error result; the `ToolResult.id` field itself records `"srv1"`, exposing
the inconsistency. -/
theorem web_search_result_keyed_by_missing_id :
    (anthropic_process_content blocks₀).tool_calls
      = [⟨"srv1", "web_search", .obj [("query", .str "lean4")], "server_tool_use", true⟩]
    ∧ (anthropic_process_content blocks₀).tool_results
      = [("", ⟨[⟨"web_search_result", "Lean", "https://lean-lang.org"⟩],
          "web_search_tool_result", "srv1"⟩)]
    ∧ resGet (anthropic_process_content blocks₀).tool_results "srv1" = none
    ∧ (handle_server_tool
        ⟨"srv1", "web_search", .obj [("query", .str "lean4")], "server_tool_use", true⟩
        (anthropic_process_content blocks₀).tool_results).2 = true :=
  ⟨rfl, rfl, rfl, rfl⟩

/-! ## Claim C7 -/

theorem queryLoop_step_success (o : Nat → LLMOutcome) (M B f a : Nat) (s : List Nat)
    (ho : o a = .success) :
    queryLoop o M B (f + 1) a s = ⟨.ok, a + 1, nextSleeps B a s⟩ := by
  rw [queryLoop, ho]

theorem queryLoop_step_failure (o : Nat → LLMOutcome) (M B f a : Nat) (s : List Nat)
    (code : Option Nat) (msg : String) (ho : o a = .failure code msg) :
    queryLoop o M B (f + 1) a s
      = (if a = M - 1 then ⟨.fatal (fatalMsg M msg), a + 1, nextSleeps B a s⟩
         else if is_retryable code msg then queryLoop o M B f (a + 1) (nextSleeps B a s)
         else if 0 < a then ⟨.reraise msg, a + 1, nextSleeps B a s⟩
         else queryLoop o M B f (a + 1) (nextSleeps B a s)) := by
  rw [queryLoop, ho]

theorem queryLoop_attempts_le (o : Nat → LLMOutcome) (M B : Nat) :
    ∀ (fuel attempt : Nat) (sleeps : List Nat),
      (queryLoop o M B fuel attempt sleeps).attempts ≤ attempt + fuel := by
  intro fuel
  induction fuel with
  | zero => intro attempt sleeps; simp [queryLoop]
  | succ f ih =>
    intro attempt sleeps
    cases ho : o attempt with
    | success =>
      rw [queryLoop_step_success o M B f attempt sleeps ho]
      show attempt + 1 ≤ attempt + (f + 1)
      omega
    | failure code msg =>
      rw [queryLoop_step_failure o M B f attempt sleeps code msg ho]
      by_cases h1 : attempt = M - 1
      · rw [if_pos h1]
        show attempt + 1 ≤ attempt + (f + 1)
        omega
      · rw [if_neg h1]
        by_cases h2 : is_retryable code msg = true
        · rw [if_pos h2]
          exact le_trans (ih (attempt + 1) _) (by omega)
        · rw [if_neg h2]
          by_cases h3 : 0 < attempt
          · rw [if_pos h3]
            show attempt + 1 ≤ attempt + (f + 1)
            omega
          · rw [if_neg h3]
            exact le_trans (ih (attempt + 1) _) (by omega)

theorem queryLoop_attempts_ge (o : Nat → LLMOutcome) (M B : Nat) :
    ∀ (fuel attempt : Nat) (sleeps : List Nat),
      attempt ≤ (queryLoop o M B fuel attempt sleeps).attempts := by
  intro fuel
  induction fuel with
  | zero => intro attempt sleeps; simp [queryLoop]
  | succ f ih =>
    intro attempt sleeps
    cases ho : o attempt with
    | success =>
      rw [queryLoop_step_success o M B f attempt sleeps ho]
      show attempt ≤ attempt + 1
      omega
    | failure code msg =>
      rw [queryLoop_step_failure o M B f attempt sleeps code msg ho]
      by_cases h1 : attempt = M - 1
      · rw [if_pos h1]
        show attempt ≤ attempt + 1
        omega
      · rw [if_neg h1]
        by_cases h2 : is_retryable code msg = true
        · rw [if_pos h2]
          exact le_trans (by omega) (ih (attempt + 1) _)
        · rw [if_neg h2]
          by_cases h3 : 0 < attempt
          · rw [if_pos h3]
            show attempt ≤ attempt + 1
            omega
          · rw [if_neg h3]
            exact le_trans (by omega) (ih (attempt + 1) _)

/-- The claimed sleep schedule: before attempt `i > 0` the loop sleeps
`min(2^(i-1), max_backoff)`, so a run of `n` attempts sleeps the map of
that over `i = 1..n-1`. -/
def sleepSchedule (B n : Nat) : List Nat :=
  (List.range' 1 (n - 1)).map (fun i => min (2 ^ (i - 1)) B)

theorem queryLoop_sleeps (o : Nat → LLMOutcome) (M B : Nat) :
    ∀ (fuel attempt : Nat) (sleeps : List Nat),
      (queryLoop o M B fuel attempt sleeps).sleeps
        = sleeps ++ (List.range' (max attempt 1)
            ((queryLoop o M B fuel attempt sleeps).attempts - max attempt 1)).map
            (fun i => min (2 ^ (i - 1)) B) := by
  intro fuel
  induction fuel with
  | zero => intro attempt sleeps; simp [queryLoop]
  | succ f ih =>
    intro attempt sleeps
    have hterm : ∀ k : RetryKind,
        (RetryResult.mk k (attempt + 1) (nextSleeps B attempt sleeps)).sleeps
          = sleeps ++ (List.range' (max attempt 1)
              ((RetryResult.mk k (attempt + 1) (nextSleeps B attempt sleeps)).attempts
                - max attempt 1)).map (fun i => min (2 ^ (i - 1)) B) := by
      intro k
      by_cases h3 : 0 < attempt
      · have hm : max attempt 1 = attempt := by omega
        have hr : attempt + 1 - attempt = 1 := by omega
        show nextSleeps B attempt sleeps = _
        rw [hm, hr, List.range'_one, nextSleeps, if_pos h3]
        simp
      · have ha : attempt = 0 := by omega
        subst ha
        show nextSleeps B 0 sleeps = _
        rw [nextSleeps]
        simp
    have hrec :
        (queryLoop o M B f (attempt + 1) (nextSleeps B attempt sleeps)).sleeps
          = sleeps ++ (List.range' (max attempt 1)
              ((queryLoop o M B f (attempt + 1) (nextSleeps B attempt sleeps)).attempts
                - max attempt 1)).map (fun i => min (2 ^ (i - 1)) B) := by
      have hih := ih (attempt + 1) (nextSleeps B attempt sleeps)
      have hge := queryLoop_attempts_ge o M B f (attempt + 1) (nextSleeps B attempt sleeps)
      have hmax1 : max (attempt + 1) 1 = attempt + 1 := by omega
      rw [hmax1] at hih
      by_cases h3 : 0 < attempt
      · have hm : max attempt 1 = attempt := by omega
        have hsplit : List.range' attempt
            ((queryLoop o M B f (attempt + 1) (nextSleeps B attempt sleeps)).attempts
              - attempt)
            = attempt :: List.range' (attempt + 1)
                ((queryLoop o M B f (attempt + 1) (nextSleeps B attempt sleeps)).attempts
                  - (attempt + 1)) := by
          have he : (queryLoop o M B f (attempt + 1) (nextSleeps B attempt sleeps)).attempts
              - attempt
              = ((queryLoop o M B f (attempt + 1) (nextSleeps B attempt sleeps)).attempts
                  - (attempt + 1)) + 1 := by omega
          rw [he, List.range'_succ]
        rw [hih, hm, hsplit, nextSleeps, if_pos h3]
        simp
      · have ha : attempt = 0 := by omega
        subst ha
        rw [hih, nextSleeps]
        simp
    cases ho : o attempt with
    | success =>
      rw [queryLoop_step_success o M B f attempt sleeps ho]
      exact hterm .ok
    | failure code msg =>
      rw [queryLoop_step_failure o M B f attempt sleeps code msg ho]
      by_cases h1 : attempt = M - 1
      · rw [if_pos h1]
        exact hterm _
      · rw [if_neg h1]
        by_cases h2 : is_retryable code msg = true
        · rw [if_pos h2]
          exact hrec
        · rw [if_neg h2]
          by_cases h3 : 0 < attempt
          · rw [if_pos h3]
            exact hterm _
          · rw [if_neg h3]
            exact hrec

theorem queryLoop_advance (o : Nat → LLMOutcome) (M B : Nat) (k : Nat) :
    ∀ (fuel attempt : Nat) (sleeps : List Nat),
      (∀ i, attempt ≤ i → i < attempt + k → isRetryableFailure (o i) = true) →
      attempt + k < M → k ≤ fuel →
      ∃ s', queryLoop o M B fuel attempt sleeps
        = queryLoop o M B (fuel - k) (attempt + k) s' := by
  induction k with
  | zero => intro fuel a s _ _ _; exact ⟨s, by simp⟩
  | succ k ih =>
    intro fuel a s hret hlt hfuel
    obtain ⟨f, rfl⟩ : ∃ f, fuel = f + 1 := ⟨fuel - 1, by omega⟩
    have hcur : isRetryableFailure (o a) = true := hret a le_rfl (by omega)
    cases ho : o a with
    | success => rw [ho] at hcur; simp [isRetryableFailure] at hcur
    | failure code msg =>
      rw [ho] at hcur
      have hr : is_retryable code msg = true := by
        simpa [isRetryableFailure] using hcur
      have hne : ¬(a = M - 1) := by omega
      have hstep : queryLoop o M B (f + 1) a s
          = queryLoop o M B f (a + 1) (nextSleeps B a s) := by
        rw [queryLoop_step_failure o M B f a s code msg ho, if_neg hne, if_pos hr]
      obtain ⟨s', hs'⟩ := ih f (a + 1) (nextSleeps B a s)
        (fun i h1 h2 => hret i (by omega) (by omega)) (by omega) (by omega)
      refine ⟨s', ?_⟩
      rw [hstep, hs']
      have e1 : f - k = f + 1 - (k + 1) := by omega
      have e2 : a + 1 + k = a + (k + 1) := by omega
      rw [e1, e2]

/-- `query_llm_get_new_state`'s retry policy at the source defaults
(`max_attempts = 20`, `max_backoff = 300`): (1) at most 20 attempts are
made; (2) the backoffs slept are exactly `min(2^(i-1), 300)` before each
attempt `i > 0`; (3) 19 retryable errors followed by a success return that
success on the 20th attempt; (4) 20 retryable errors end in exactly one
fatal exhaustion error; (5) a run opening with two non-retryable errors is
retried once and then aborts by re-raising (2 attempts). -/
theorem retry_policy (outcomes : Nat → LLMOutcome) :
    (query_llm_retry outcomes 20 300).attempts ≤ 20
    ∧ (query_llm_retry outcomes 20 300).sleeps
        = sleepSchedule 300 (query_llm_retry outcomes 20 300).attempts
    ∧ ((∀ i, i < 19 → isRetryableFailure (outcomes i) = true) →
        outcomes 19 = .success →
        (query_llm_retry outcomes 20 300).kind = .ok
        ∧ (query_llm_retry outcomes 20 300).attempts = 20)
    ∧ ((∀ i, i < 20 → isRetryableFailure (outcomes i) = true) →
        ∃ m, (query_llm_retry outcomes 20 300).kind = .fatal m
        ∧ (query_llm_retry outcomes 20 300).attempts = 20)
    ∧ (isNonRetryableFailure (outcomes 0) = true →
        isNonRetryableFailure (outcomes 1) = true →
        ∃ m, (query_llm_retry outcomes 20 300).kind = .reraise m
        ∧ (query_llm_retry outcomes 20 300).attempts = 2) := by
  refine ⟨?_, ?_, ?_, ?_, ?_⟩
  · simpa using queryLoop_attempts_le outcomes 20 300 20 0 []
  · have := queryLoop_sleeps outcomes 20 300 20 0 []
    simpa [query_llm_retry, sleepSchedule] using this
  · intro hret hsucc
    obtain ⟨s', hs'⟩ := queryLoop_advance outcomes 20 300 19 20 0 []
      (fun i h1 h2 => hret i (by omega)) (by omega) (by omega)
    have hq : query_llm_retry outcomes 20 300 = ⟨.ok, 20, nextSleeps 300 19 s'⟩ := by
      have h1 : query_llm_retry outcomes 20 300
          = queryLoop outcomes 20 300 (20 - 19) (0 + 19) s' := hs'
      rw [h1]
      exact queryLoop_step_success outcomes 20 300 0 19 s' hsucc
    rw [hq]
    exact ⟨rfl, rfl⟩
  · intro hret
    obtain ⟨s', hs'⟩ := queryLoop_advance outcomes 20 300 19 20 0 []
      (fun i h1 h2 => hret i (by omega)) (by omega) (by omega)
    have hcur : isRetryableFailure (outcomes 19) = true := hret 19 (by omega)
    cases ho : outcomes 19 with
    | success => rw [ho] at hcur; simp [isRetryableFailure] at hcur
    | failure code msg =>
      have hq : query_llm_retry outcomes 20 300
          = ⟨.fatal (fatalMsg 20 msg), 20, nextSleeps 300 19 s'⟩ := by
        have h1 : query_llm_retry outcomes 20 300
            = queryLoop outcomes 20 300 (20 - 19) (0 + 19) s' := hs'
        rw [h1, queryLoop_step_failure outcomes 20 300 0 19 s' code msg ho,
          if_pos (by omega : (19 : Nat) = 20 - 1)]
      rw [hq]
      exact ⟨fatalMsg 20 msg, rfl, rfl⟩
  · intro h0 h1
    cases ho0 : outcomes 0 with
    | success => rw [ho0] at h0; simp [isNonRetryableFailure] at h0
    | failure code0 msg0 =>
      rw [ho0] at h0
      have hr0 : is_retryable code0 msg0 = false := by
        simpa [isNonRetryableFailure] using h0
      cases ho1 : outcomes 1 with
      | success => rw [ho1] at h1; simp [isNonRetryableFailure] at h1
      | failure code1 msg1 =>
        rw [ho1] at h1
        have hr1 : is_retryable code1 msg1 = false := by
          simpa [isNonRetryableFailure] using h1
        have hstep0 : query_llm_retry outcomes 20 300
            = queryLoop outcomes 20 300 19 1 (nextSleeps 300 0 []) := by
          have he : query_llm_retry outcomes 20 300
              = queryLoop outcomes 20 300 (19 + 1) 0 [] := rfl
          rw [he, queryLoop_step_failure outcomes 20 300 19 0 [] code0 msg0 ho0,
            if_neg (by omega : ¬((0 : Nat) = 20 - 1)), if_neg (by simp [hr0]),
            if_neg (by omega : ¬((0 : Nat) < 0))]
        have hstep1 : queryLoop outcomes 20 300 19 1 (nextSleeps 300 0 [])
            = ⟨.reraise msg1, 1 + 1, nextSleeps 300 1 (nextSleeps 300 0 [])⟩ := by
          have he : queryLoop outcomes 20 300 19 1 (nextSleeps 300 0 [])
              = queryLoop outcomes 20 300 (18 + 1) 1 (nextSleeps 300 0 []) := rfl
          rw [he, queryLoop_step_failure outcomes 20 300 18 1 (nextSleeps 300 0 [])
              code1 msg1 ho1,
            if_neg (by omega : ¬((1 : Nat) = 20 - 1)), if_neg (by simp [hr1]),
            if_pos (by omega : (0 : Nat) < 1)]
        rw [hstep0, hstep1]
        exact ⟨msg1, rfl, rfl⟩

/-- Outcome family for C7's 19-errors-then-success scenario. -/
def retryOutcomesA : Nat → LLMOutcome :=
  fun i => if i < 19 then .failure (some 529) "Overloaded" else .success

/-- Outcome family for C7's 20-errors scenario. -/
def retryOutcomesB : Nat → LLMOutcome :=
  fun _ => .failure (some 529) "Overloaded"

/-- Outcome family for C7's non-retryable scenario. -/
def retryOutcomesC : Nat → LLMOutcome :=
  fun _ => .failure (some 400) "Invalid request"

/-- C7 witness: the three scenarios of `retry_policy` at concrete outcome
families. -/
theorem retry_policy_witness :
    ((query_llm_retry retryOutcomesA 20 300).kind = .ok
      ∧ (query_llm_retry retryOutcomesA 20 300).attempts = 20)
    ∧ (∃ m, (query_llm_retry retryOutcomesB 20 300).kind = .fatal m
      ∧ (query_llm_retry retryOutcomesB 20 300).attempts = 20)
    ∧ (∃ m, (query_llm_retry retryOutcomesC 20 300).kind = .reraise m
      ∧ (query_llm_retry retryOutcomesC 20 300).attempts = 2) :=
  ⟨(retry_policy retryOutcomesA).2.2.1 (by decide) (by decide),
   (retry_policy retryOutcomesB).2.2.2.1 (by decide),
   (retry_policy retryOutcomesC).2.2.2.2 (by decide) (by decide)⟩

/-! ## Claim C8 -/

theorem truncate_unfold (sys user_input : Msg) (conv : List Msg) (K : Nat)
    (hgt : ¬((sys :: user_input :: conv).length ≤ 2)) :
    truncate_conversation_history (sys :: user_input :: conv) K
      = (if conv.length / 2 ≤ K then sys :: user_input :: conv
         else
           [sys, user_input,
             truncation_notice
               (pyDropTail (min (if conv.length % 2 ≠ 0 then K * 2 + 1 else K * 2)
                 conv.length) conv).length
               ((pyTail (min (if conv.length % 2 ≠ 0 then K * 2 + 1 else K * 2)
                 conv.length) conv).length / 2)]
             ++ pyTail (min (if conv.length % 2 ≠ 0 then K * 2 + 1 else K * 2)
                 conv.length) conv) := by
  simp only [truncate_conversation_history]
  rw [if_neg hgt]

/-- C8: for a history of `sys :: user_input :: conv` with `conv` made of
`m` complete (assistant, user) cycles and `max_call_stack = K ≥ 1`: when
`m > K` the LLM input is `[system, user input, truncation notice]` followed
by the most recent `2K` conversation messages (`3 + 2K` messages in all);
when `m ≤ K` the LLM input is the full history unchanged; and the state's
`messages` list keeps the full history — only the LLM input is truncated. -/
theorem truncate_keeps_recent_cycles (sys user_input : Msg) (conv : List Msg)
    (K m : Nat) (hK : 0 < K) (hlen : conv.length = 2 * m) :
    (K < m →
      truncate_conversation_history (sys :: user_input :: conv) K
        = [sys, user_input, truncation_notice (2 * m - 2 * K) K]
            ++ conv.drop (2 * m - 2 * K)
      ∧ (truncate_conversation_history (sys :: user_input :: conv) K).length
          = 3 + 2 * K)
    ∧ (m ≤ K →
      truncate_conversation_history (sys :: user_input :: conv) K
        = sys :: user_input :: conv)
    ∧ ∀ asst, new_state_messages (sys :: user_input :: conv) asst
        = (sys :: user_input :: conv) ++ [asst] := by
  refine ⟨?_, ?_, fun asst => rfl⟩
  · intro hm
    have hgt : ¬((sys :: user_input :: conv).length ≤ 2) := by
      simp only [List.length_cons, hlen]
      omega
    rw [truncate_unfold sys user_input conv K hgt]
    have hdiv : conv.length / 2 = m := by omega
    have hmod : ¬(conv.length % 2 ≠ 0) := by omega
    rw [hdiv, if_neg (by omega : ¬(m ≤ K)), if_neg hmod]
    have hmin : min (K * 2) conv.length = K * 2 := by omega
    rw [hmin]
    have hK2 : ¬(K * 2 = 0) := by omega
    have htail : pyTail (K * 2) conv = conv.drop (2 * m - 2 * K) := by
      rw [pyTail, if_neg hK2, hlen]
      have : 2 * m - K * 2 = 2 * m - 2 * K := by omega
      rw [this]
    have htail_len : (pyTail (K * 2) conv).length = K * 2 := by
      rw [htail, List.length_drop, hlen]
      omega
    have hdrop_len : (pyDropTail (K * 2) conv).length = 2 * m - 2 * K := by
      rw [pyDropTail, if_neg hK2, List.length_take, hlen]
      omega
    rw [htail_len, hdrop_len, htail]
    have hhalf : K * 2 / 2 = K := by omega
    rw [hhalf]
    refine ⟨rfl, ?_⟩
    simp only [List.length_append, List.length_cons, List.length_nil, List.length_drop,
      hlen]
    omega
  · intro hm
    by_cases hsmall : (sys :: user_input :: conv).length ≤ 2
    · simp only [truncate_conversation_history]
      rw [if_pos hsmall]
    · rw [truncate_unfold sys user_input conv K hsmall]
      have hdiv : conv.length / 2 = m := by omega
      rw [hdiv, if_pos hm]

/-- Concrete system message for the C8 witness. -/
def msgS : Msg := ⟨"system", .text "system prompt"⟩

/-- Concrete user-input message for the C8 witness. -/
def msgU : Msg := ⟨"user", .text "implement the task"⟩

/-- Concrete filler message for the C8 witness. -/
def msgA : Msg := ⟨"assistant", .text "working"⟩

/-- C8 witness: 8 complete cycles (16 conversation messages) with
`max_call_stack = 3` produce a 9-message LLM input while the state keeps
the full history. -/
theorem truncate_keeps_recent_cycles_witness :
    truncate_conversation_history (msgS :: msgU :: List.replicate 16 msgA) 3
      = [msgS, msgU, truncation_notice (2 * 8 - 2 * 3) 3]
          ++ (List.replicate 16 msgA).drop (2 * 8 - 2 * 3)
    ∧ (truncate_conversation_history (msgS :: msgU :: List.replicate 16 msgA) 3).length
        = 3 + 2 * 3
    ∧ new_state_messages (msgS :: msgU :: List.replicate 16 msgA) msgA
        = (msgS :: msgU :: List.replicate 16 msgA) ++ [msgA] := by
  have h := truncate_keeps_recent_cycles msgS msgU (List.replicate 16 msgA) 3 8
    (by omega) rfl
  exact ⟨(h.1 (by omega)).1, (h.1 (by omega)).2, h.2.2 msgA⟩

/-! ## Claim C9 -/

/-- Well-formedness of one block for C9: if its content parses to a dict
with an `end_task` key, that value is a JSON boolean (as produced by the
`generate_output` tools, which set it to Python `True`/`False`). -/
def blockEndTaskBoolean (b : ContentBlock) : Bool :=
  match b.content with
  | some (Json.obj kvs) =>
    match alistGet kvs "end_task" with
    | some (Json.bool _) => true
    | some _ => false
    | none => true
  | _ => true

/-- Well-formedness of one message for C9. -/
def msgEndTaskBoolean (m : Msg) : Bool :=
  match m.content with
  | .blocks bs => bs.all blockEndTaskBoolean
  | .text _ => true

/-- Well-formedness of a history for C9: every `end_task` value present in
a parsed tool result is a JSON boolean. -/
def end_task_fields_boolean (messages : List Msg) : Bool :=
  messages.all msgEndTaskBoolean

/-- The claim's termination condition: some user-role message among the
last 5 contains a `tool_result` block whose content parses as a JSON object
with `end_task = true`. -/
def HasEndTaskTrueInWindow (messages : List Msg) : Prop :=
  ∃ m ∈ lastN 5 messages, m.role = "user" ∧ ∃ bs, m.content = .blocks bs ∧
    ∃ b ∈ bs, b.type = "tool_result" ∧
      ∃ kvs, b.content = some (.obj kvs) ∧ alistGet kvs "end_task" = some (.bool true)

theorem block_signals_iff (b : ContentBlock) (hwfb : blockEndTaskBoolean b = true) :
    block_signals_end b = true ↔
      (b.type = "tool_result" ∧
        ∃ kvs, b.content = some (.obj kvs)
          ∧ alistGet kvs "end_task" = some (.bool true)) := by
  cases hbc : b.content with
  | none => simp [block_signals_end, hbc]
  | some j =>
    cases j with
    | null => simp [block_signals_end, hbc]
    | bool bb => simp [block_signals_end, hbc]
    | num n => simp [block_signals_end, hbc]
    | str s => simp [block_signals_end, hbc]
    | arr xs => simp [block_signals_end, hbc]
    | obj kvs =>
      simp only [blockEndTaskBoolean, hbc] at hwfb
      cases hget : alistGet kvs "end_task" with
      | none => simp [block_signals_end, hbc, hget, Json.truthy]
      | some v =>
        cases v with
        | bool bb =>
          simp [block_signals_end, hbc, hget, Json.truthy]
        | null => rw [hget] at hwfb; exact absurd hwfb (by simp)
        | num n => rw [hget] at hwfb; exact absurd hwfb (by simp)
        | str s => rw [hget] at hwfb; exact absurd hwfb (by simp)
        | arr xs => rw [hget] at hwfb; exact absurd hwfb (by simp)
        | obj kvs' => rw [hget] at hwfb; exact absurd hwfb (by simp)

theorem message_signals_iff (m : Msg) (hwfm : msgEndTaskBoolean m = true) :
    message_signals_completion m = true ↔
      (m.role = "user" ∧ ∃ bs, m.content = .blocks bs ∧
        ∃ b ∈ bs, b.type = "tool_result" ∧
          ∃ kvs, b.content = some (.obj kvs)
            ∧ alistGet kvs "end_task" = some (.bool true)) := by
  cases hmc : m.content with
  | text s => simp [message_signals_completion, hmc]
  | blocks bs =>
    simp only [msgEndTaskBoolean, hmc] at hwfm
    have hwfb : ∀ b ∈ bs, blockEndTaskBoolean b = true := List.all_eq_true.mp hwfm
    simp only [message_signals_completion, hmc, Bool.and_eq_true, decide_eq_true_eq,
      List.any_eq_true]
    constructor
    · rintro ⟨hrole, b, hb, hsig⟩
      exact ⟨hrole, bs, rfl,
        b, hb, (block_signals_iff b (hwfb b hb)).mp hsig⟩
    · rintro ⟨hrole, bs', hbs', b, hb, hinner⟩
      have : bs' = bs := by
        injection hbs'.symm
      subst this
      exact ⟨hrole, b, hb, (block_signals_iff b (hwfb b hb)).mpr hinner⟩

/-- C9: with no pending tool calls, the loop router reaches `END` iff some
user-role message among the *last 5* messages contains a `tool_result`
block whose content parses as a JSON object with `end_task = true`; in
particular an `end_task = true` result earlier than the 5-message window
never terminates the loop.  (The well-formedness hypothesis pins `end_task`
values to JSON booleans, which is how the `generate_output` tools emit
them.) -/
theorem termination_scan (messages : List Msg)
    (hwf : end_task_fields_boolean messages = true) :
    should_continue [] messages = "END" ↔ HasEndTaskTrueInWindow messages := by
  have hwf' : ∀ m ∈ messages, msgEndTaskBoolean m = true := List.all_eq_true.mp hwf
  have hstep : should_continue [] messages
      = (if check_for_task_completion messages then "END" else "agent") := rfl
  have hcheck : check_for_task_completion messages = true ↔
      HasEndTaskTrueInWindow messages := by
    rw [check_for_task_completion, List.any_eq_true]
    constructor
    · rintro ⟨m, hmem, hpred⟩
      rw [List.mem_reverse] at hmem
      have hmmsg : m ∈ messages := List.drop_subset _ _ hmem
      exact ⟨m, hmem, (message_signals_iff m (hwf' m hmmsg)).mp hpred⟩
    · rintro ⟨m, hmem, hinner⟩
      have hmmsg : m ∈ messages := List.drop_subset _ _ hmem
      exact ⟨m, List.mem_reverse.mpr hmem,
        (message_signals_iff m (hwf' m hmmsg)).mpr hinner⟩
  by_cases hc : check_for_task_completion messages = true
  · rw [hstep, if_pos hc]
    exact ⟨fun _ => hcheck.mp hc, fun _ => rfl⟩
  · have hc' : check_for_task_completion messages = false := by simpa using hc
    rw [hstep, if_neg (by simp [hc'])]
    constructor
    · intro h
      exact absurd h (by decide)
    · intro h
      exact absurd (hcheck.mpr h) (by simp [hc'])

/-- A tool-result block carrying `end_task = true`, for the C9 witness. -/
def endBlock : ContentBlock :=
  ⟨"tool_result", some (.obj [("end_task", .bool true), ("summary", .str "done")])⟩

/-- The tool-result user message for the C9 witness. -/
def endMsg : Msg := ⟨"user", .blocks [endBlock]⟩

/-- A plain assistant message for the C9 witness. -/
def plainMsg : Msg := ⟨"assistant", .text "thinking"⟩

/-- C9 witness: a history whose last message carries `end_task=true` in a
tool result reaches `END`, via `termination_scan`. -/
theorem termination_scan_witness :
    should_continue [] [plainMsg, endMsg] = "END"
    ∧ end_task_fields_boolean [plainMsg, endMsg] = true := by
  refine ⟨?_, by decide⟩
  exact (termination_scan [plainMsg, endMsg] (by decide)).mpr
    ⟨endMsg, by simp [lastN, endMsg], rfl,
      [endBlock], rfl, endBlock, by simp, rfl,
      [("end_task", .bool true), ("summary", .str "done")], rfl, rfl⟩

end Cairn
